import Mathlib

/-!
Verification of the reddit-vote-remover engine against its specification.

The development shallowly embeds the two Python implementations
(`src/backend/reddit_remover.py` and `src/reddit_vote_remover_simple.py`).
Network responses are external inputs to the program, so they appear as
oracle parameters:
  - a `Server` maps a pagination cursor to the outcome of one listing page
    fetch, already projected through the two regex extractors of the source
    (`POST_ID_PATTERN.findall` and `AFTER_PATTERN.findall`): the HTML body is
    an arbitrary external string and only those two projections of it are
    ever consumed by the code;
  - `net : String → VoteState → Bool` is the GraphQL mutation endpoint
    reduced to the boolean the source reduces it to (the nested `"ok"`
    acknowledgment, with any transport error or malformed body read as
    `false` by the `except` clause of `_vote`);
  - `urlMap : String → Option String` is the outcome of the best-effort
    permalink-resolution scan of the first listing page.
Python `set` contents are represented by duplicate-free lists; sleeping is
recorded as an observable trace of (site, duration) pairs with durations in
`ℚ`; progress-callback invocations are recorded as an event trace.
Python string primitives (`split`, `strip`, `replace`, `in`) are modelled by
structurally recursive functions over `List Char` so that every definition
evaluates inside the kernel.
-/

namespace RedditRemover

/-! ## Python string primitives -/

/-- Python `s.split(sep)` for a one-character separator: every occurrence
splits, and the empty string yields `[[]]`. -/
def pySplitChar (sep : Char) : List Char → List (List Char)
  | [] => [[]]
  | c :: cs =>
    let rest := pySplitChar sep cs
    if c = sep then [] :: rest
    else (c :: rest.headD []) :: rest.tail

/-- Python `s.split(sep, 1)` restricted to the part before / after the first
occurrence of a one-character separator; `Option.none` when absent. -/
def pySplitFirst (sep : Char) : List Char → Option (List Char × List Char)
  | [] => Option.none
  | c :: cs =>
    if c = sep then Option.some ([], cs)
    else (pySplitFirst sep cs).map fun p => (c :: p.1, p.2)

/-- Python `s.strip()`: remove leading and trailing whitespace. -/
def pyStrip (l : List Char) : List Char :=
  ((l.dropWhile Char.isWhitespace).reverse.dropWhile Char.isWhitespace).reverse

/-- Python `"=" in s`. -/
def containsChar (sep : Char) (l : List Char) : Bool :=
  l.any fun c => c = sep

/-- Python `s.replace("%3D", "=")` as used on extracted cursors, replacing
every (left-to-right, non-overlapping) occurrence. -/
def replacePercent3D : List Char → List Char
  | '%' :: '3' :: 'D' :: rest => '=' :: replacePercent3D rest
  | c :: rest => c :: replacePercent3D rest
  | [] => []

/-- Cursor decoding done by both sources: `after_matches[0].replace("%3D", "=")`. -/
def decodeCursor (s : String) : String :=
  String.mk (replacePercent3D s.data)

/-! ## Data model -/

/-- `VoteType` enum of both sources: which listing to scan. -/
inductive VoteType
  | upvoted
  | downvoted
deriving DecidableEq

/-- The `.value` string of the Python enum member. -/
def VoteType.value : VoteType → String
  | VoteType.upvoted => "upvoted"
  | VoteType.downvoted => "downvoted"

/-- `VoteState` enum of both sources: the mutation payload value. -/
inductive VoteState
  | UP
  | DOWN
  | NONE
deriving DecidableEq

/-- `vote_state = VoteState.UP if vote_type == VoteType.UPVOTED else VoteState.DOWN`
(first line of `remove_votes` in both sources). -/
def nominalState : VoteType → VoteState
  | VoteType.upvoted => VoteState.UP
  | VoteType.downvoted => VoteState.DOWN

/-! ## Credential adapter (`_set_cookies`, `__init__`) -/

/-- `_set_cookies` of both sources: split the cookie string on `;`, skip
pieces without `=`, strip, split on the first `=` only, strip key and value,
and set each pair into the session jar in order.  The jar is modelled as the
ordered list of `cookies.set` calls. -/
def parseCookies (cookie_string : String) : List (String × String) :=
  (pySplitChar ';' cookie_string.data).filterMap fun cookie =>
    if containsChar '=' cookie then
      match pySplitFirst '=' (pyStrip cookie) with
      | Option.some (k, v) => Option.some (String.mk (pyStrip k), String.mk (pyStrip v))
      | Option.none => Option.none
    else
      Option.none

/-- `session.cookies.get name`: the most recently set value for `name`
(a later `cookies.set` for the same name overwrites an earlier one). -/
def cookiesGet : List (String × String) → String → Option String
  | [], _ => Option.none
  | (k, v) :: rest, name =>
    match cookiesGet rest name with
    | Option.some r => Option.some r
    | Option.none => if k = name then Option.some v else Option.none

/-- `self.csrf_token = self.session.cookies.get("csrf_token")` in `__init__`
of both sources, applied to the constructor's cookie string. -/
def csrfTokenOf (cookie_string : String) : Option String :=
  cookiesGet (parseCookies cookie_string) "csrf_token"

/-- Python truthiness of an optional string: `None` and `""` are falsy
(`if not self.csrf_token`). -/
def pyTruthy : Option String → Bool
  | Option.none => false
  | Option.some s => !s.data.isEmpty

/-- Claim C8: cookie-string parsing splits on `;`, trims whitespace, splits
each pair on the first `=` only so values may contain `=`, and silently
skips pairs without `=`; the input `"a=1; b=2=2; malformed"` yields exactly
the cookies `a = "1"` and `b = "2=2"`, dropping the malformed entry. -/
theorem cookie_parsing_contract :
    parseCookies "a=1; b=2=2; malformed" = [("a", "1"), ("b", "2=2")]
    ∧ cookiesGet (parseCookies "a=1; b=2=2; malformed") "a" = Option.some "1"
    ∧ cookiesGet (parseCookies "a=1; b=2=2; malformed") "b" = Option.some "2=2"
    ∧ cookiesGet (parseCookies "a=1; b=2=2; malformed") "malformed" = Option.none := by
  refine ⟨?_, ?_, ?_, ?_⟩ <;> decide

/-! ## Vote mutator (`_vote`) -/

/-- `_vote` of both sources.  `csrf` is the remover's `self.csrf_token`;
`net post_id vote_state` is the boolean the source reduces the GraphQL
response to (the nested `"ok"` acknowledgment, `False` on any exception).
The second component records the mutation POST requests actually issued: on
a falsy token the function returns `False` before any network round-trip. -/
def vote (csrf : Option String) (net : String → VoteState → Bool)
    (post_id : String) (vote_state : VoteState) : Bool × List (String × VoteState) :=
  if pyTruthy csrf then (net post_id vote_state, [(post_id, vote_state)])
  else (false, [])

/-! ## Removal orchestrator (`remove_votes`) -/

/-- The two `time.sleep` sites inside the per-item loop of `remove_votes`:
the fixed `time.sleep(0.3)` between the two vote calls of one item, and the
inter-item sleep guarded by `if i < total`. -/
inductive SleepSite
  | betweenVotes
  | betweenItems
deriving DecidableEq

/-- Running statistics dict `{"total": _, "removed": _, "failed": _}`. -/
structure Stats where
  total : Nat
  removed : Nat
  failed : Nat
deriving DecidableEq

/-- One progress-callback invocation of the backend `remove_votes`
(`_send_progress`): message, status, the statistics snapshot passed, and the
per-item fields present only in per-item events. -/
structure Event where
  message : String
  status : String
  total : Nat
  removed : Nat
  failed : Nat
  post_id : Option String
  url : Option String
  success : Option Bool
deriving DecidableEq

/-- An event is a per-item event iff it carries a `post_id` field. -/
def itemEvent (e : Event) : Bool :=
  e.post_id.isSome

/-- Observable outcome of one backend removal pass: the returned statistics
dict, the progress events emitted in order, the `_vote` invocations in
order, the mutation POSTs actually sent, and the sleep trace of the loop. -/
structure PassOut where
  stats : Stats
  events : List Event
  voteCalls : List (String × VoteState)
  netPosts : List (String × VoteState)
  sleeps : List (SleepSite × ℚ)
deriving DecidableEq

/-- Mutable state of the backend per-item loop. -/
structure LoopSt where
  removed : Nat
  failed : Nat
  events : List Event
  voteCalls : List (String × VoteState)
  netPosts : List (String × VoteState)
  sleeps : List (SleepSite × ℚ)
deriving DecidableEq

/-- Python `f"https://www.reddit.com/comments/{post_id[3:]}"`, the fallback
URL built from the prefix-stripped identifier. -/
def fallbackUrl (post_id : String) : String :=
  "https://www.reddit.com/comments/" ++ String.mk (post_id.data.drop 3)

/-- The `for i, post_id in enumerate(post_ids, 1)` loop of the backend
`remove_votes` (src/backend/reddit_remover.py lines 214-240).  Per item:
call `_vote(post_id, vote_state)` ignoring its result, `time.sleep(0.3)`,
call `_vote(post_id, VoteState.NONE)` whose result alone selects the
`removed`/`failed` increment, emit one per-item progress event carrying the
updated statistics snapshot, and sleep `max(0.3, delay)` iff `i < total`. -/
def passLoop (csrf : Option String) (net : String → VoteState → Bool)
    (urlMap : String → Option String) (delay : ℚ) (vote_state : VoteState)
    (total : Nat) : Nat → List String → LoopSt → LoopSt
  | _, [], st => st
  | i, post_id :: rest, st =>
    let c1 := vote csrf net post_id vote_state
    let c2 := vote csrf net post_id VoteState.NONE
    let ok2 := c2.1
    let removed2 := if ok2 then st.removed + 1 else st.removed
    let failed2 := if ok2 then st.failed else st.failed + 1
    let marker := if ok2 then "✓ " else "✗ "
    let msg := "[" ++ Nat.repr i ++ "/" ++ Nat.repr total ++ "] " ++ marker ++ post_id
    let url := (urlMap post_id).getD (fallbackUrl post_id)
    let ev : Event :=
      ⟨msg, if ok2 then "success" else "error", total, removed2, failed2,
        Option.some post_id, Option.some url, Option.some ok2⟩
    let sleeps2 :=
      st.sleeps ++ [(SleepSite.betweenVotes, 3/10)]
        ++ (if i < total then [(SleepSite.betweenItems, max (3/10) delay)] else [])
    passLoop csrf net urlMap delay vote_state total (i + 1) rest
      ⟨removed2, failed2, st.events ++ [ev],
        st.voteCalls ++ [(post_id, vote_state), (post_id, VoteState.NONE)],
        st.netPosts ++ c1.2 ++ c2.2, sleeps2⟩

/-- Backend `remove_votes` after discovery has produced `post_ids`
(src/backend/reddit_remover.py lines 162-254).  `post_ids` is the
deduplicated discovery result; `urlMap` summarises the best-effort permalink
resolution of lines 191-212 (its only observable effect is the `url` field
of per-item events).  On an empty discovery result the pass emits a single
warning event and returns zeroed statistics; otherwise it emits one info
event, runs the per-item loop, and emits one final success event. -/
def removeVotesPass (csrf : Option String) (net : String → VoteState → Bool)
    (urlMap : String → Option String) (username : String) (vote_type : VoteType)
    (delay : ℚ) (post_ids : List String) : PassOut :=
  let vote_state := nominalState vote_type
  let total := post_ids.length
  match post_ids with
  | [] =>
    ⟨⟨0, 0, 0⟩,
      [⟨"No " ++ vote_type.value ++ " posts found for @" ++ username ++ ".",
         "warning", 0, 0, 0, Option.none, Option.none, Option.none⟩],
      [], [], []⟩
  | _ :: _ =>
    let infoEv : Event :=
      ⟨"Processing " ++ Nat.repr total ++ " " ++ vote_type.value ++ " posts...",
        "info", total, 0, 0, Option.none, Option.none, Option.none⟩
    let fin := passLoop csrf net urlMap delay vote_state total 1 post_ids
      ⟨0, 0, [infoEv], [], [], []⟩
    let finalEv : Event :=
      ⟨"Finished " ++ vote_type.value ++ " removal.", "success",
        total, fin.removed, fin.failed, Option.none, Option.none, Option.none⟩
    ⟨⟨total, fin.removed, fin.failed⟩, fin.events ++ [finalEv],
      fin.voteCalls, fin.netPosts, fin.sleeps⟩

/-! ## Simplified variant (`reddit_vote_remover_simple.py`) -/

/-- Observable outcome of one pass of the simplified variant's
`remove_votes`: it emits no progress events and resolves no permalinks. -/
structure SimpleOut where
  stats : Stats
  voteCalls : List (String × VoteState)
  netPosts : List (String × VoteState)
  sleeps : List (SleepSite × ℚ)
deriving DecidableEq

/-- Loop state of the simplified variant. -/
structure SimpleSt where
  removed : Nat
  failed : Nat
  voteCalls : List (String × VoteState)
  netPosts : List (String × VoteState)
  sleeps : List (SleepSite × ℚ)
deriving DecidableEq

/-- The `for i, post_id in enumerate(post_ids, 1)` loop of the simplified
`remove_votes` (src/reddit_vote_remover_simple.py lines 144-159): identical
two-call mutation, but the inter-item sleep is `time.sleep(delay)` with the
raw caller-supplied delay. -/
def simpleLoop (csrf : Option String) (net : String → VoteState → Bool)
    (delay : ℚ) (vote_state : VoteState) (total : Nat) :
    Nat → List String → SimpleSt → SimpleSt
  | _, [], st => st
  | i, post_id :: rest, st =>
    let c1 := vote csrf net post_id vote_state
    let c2 := vote csrf net post_id VoteState.NONE
    let ok2 := c2.1
    let removed2 := if ok2 then st.removed + 1 else st.removed
    let failed2 := if ok2 then st.failed else st.failed + 1
    let sleeps2 :=
      st.sleeps ++ [(SleepSite.betweenVotes, 3/10)]
        ++ (if i < total then [(SleepSite.betweenItems, delay)] else [])
    simpleLoop csrf net delay vote_state total (i + 1) rest
      ⟨removed2, failed2,
        st.voteCalls ++ [(post_id, vote_state), (post_id, VoteState.NONE)],
        st.netPosts ++ c1.2 ++ c2.2, sleeps2⟩

/-- `remove_votes` of the simplified variant after discovery has produced
`post_ids` (src/reddit_vote_remover_simple.py lines 127-164). -/
def simpleRemoveVotes (csrf : Option String) (net : String → VoteState → Bool)
    (vote_type : VoteType) (delay : ℚ) (post_ids : List String) : SimpleOut :=
  let vote_state := nominalState vote_type
  match post_ids with
  | [] => ⟨⟨0, 0, 0⟩, [], [], []⟩
  | _ :: _ =>
    let fin := simpleLoop csrf net delay vote_state post_ids.length 1 post_ids
      ⟨0, 0, [], [], []⟩
    ⟨⟨post_ids.length, fin.removed, fin.failed⟩, fin.voteCalls, fin.netPosts, fin.sleeps⟩

/-! ## Loop invariants of the per-item loops -/

section PassLemmas

variable (csrf : Option String) (net : String → VoteState → Bool)
    (urlMap : String → Option String) (delay : ℚ) (vs : VoteState) (total : Nat)

lemma passLoop_removed (rest : List String) : ∀ (i : Nat) (st : LoopSt),
    (passLoop csrf net urlMap delay vs total i rest st).removed
      = st.removed + rest.countP (fun pid => (vote csrf net pid VoteState.NONE).1) := by
  induction rest with
  | nil => intro i st; simp [passLoop]
  | cons pid rest ih =>
    intro i st
    by_cases h : (vote csrf net pid VoteState.NONE).1 <;>
      simp [passLoop, ih, List.countP_cons, h] <;> omega

lemma passLoop_failed (rest : List String) : ∀ (i : Nat) (st : LoopSt),
    (passLoop csrf net urlMap delay vs total i rest st).failed
      = st.failed + rest.countP (fun pid => !(vote csrf net pid VoteState.NONE).1) := by
  induction rest with
  | nil => intro i st; simp [passLoop]
  | cons pid rest ih =>
    intro i st
    by_cases h : (vote csrf net pid VoteState.NONE).1 <;>
      simp [passLoop, ih, List.countP_cons, h] <;> omega

lemma passLoop_voteCalls (rest : List String) : ∀ (i : Nat) (st : LoopSt),
    (passLoop csrf net urlMap delay vs total i rest st).voteCalls
      = st.voteCalls
        ++ rest.flatMap (fun pid => [(pid, vs), (pid, VoteState.NONE)]) := by
  induction rest with
  | nil => intro i st; simp [passLoop]
  | cons pid rest ih => intro i st; simp [passLoop, ih]

lemma passLoop_netPosts (rest : List String) : ∀ (i : Nat) (st : LoopSt),
    (passLoop csrf net urlMap delay vs total i rest st).netPosts
      = st.netPosts
        ++ rest.flatMap (fun pid =>
            (vote csrf net pid vs).2 ++ (vote csrf net pid VoteState.NONE).2) := by
  induction rest with
  | nil => intro i st; simp [passLoop]
  | cons pid rest ih => intro i st; simp [passLoop, ih]

lemma passLoop_sleeps (rest : List String) : ∀ (i : Nat) (st : LoopSt),
    (passLoop csrf net urlMap delay vs total i rest st).sleeps
      = st.sleeps
        ++ (List.range rest.length).flatMap (fun k =>
            [(SleepSite.betweenVotes, 3/10)]
              ++ (if i + k < total
                  then [(SleepSite.betweenItems, max (3/10) delay)] else [])) := by
  induction rest with
  | nil => intro i st; simp [passLoop]
  | cons pid rest ih =>
    intro i st
    rw [List.length_cons, List.range_succ_eq_map]
    simp only [passLoop, ih, List.flatMap_cons, List.flatMap_map]
    simp only [show ∀ k : Nat, i + 1 + k = i + (k + 1) from fun k => by omega,
      Nat.add_zero, Function.comp, Nat.succ_eq_add_one, List.append_assoc]

lemma passLoop_item_sums (rest : List String) : ∀ (i : Nat) (st : LoopSt),
    ((passLoop csrf net urlMap delay vs total i rest st).events.filter
        itemEvent).map (fun e => e.removed + e.failed)
      = (st.events.filter itemEvent).map (fun e => e.removed + e.failed)
        ++ (List.range rest.length).map (fun k => st.removed + st.failed + (k + 1)) := by
  induction rest with
  | nil => intro i st; simp [passLoop]
  | cons pid rest ih =>
    intro i st
    rw [List.length_cons, List.range_succ_eq_map]
    simp only [passLoop, ih, List.filter_append, List.map_append, List.map_map]
    by_cases h : (vote csrf net pid VoteState.NONE).1 <;>
      simp [h, itemEvent, Function.comp, List.map_cons] <;>
      exact ⟨by omega, fun a _ => by omega⟩

lemma passLoop_item_totals (rest : List String) : ∀ (i : Nat) (st : LoopSt),
    ((passLoop csrf net urlMap delay vs total i rest st).events.filter
        itemEvent).map (fun e => e.total)
      = (st.events.filter itemEvent).map (fun e => e.total)
        ++ List.replicate rest.length total := by
  induction rest with
  | nil => intro i st; simp [passLoop]
  | cons pid rest ih =>
    intro i st
    simp [passLoop, ih, List.filter_append, itemEvent, List.replicate_succ]

lemma simpleLoop_removed (rest : List String) : ∀ (i : Nat) (st : SimpleSt),
    (simpleLoop csrf net delay vs total i rest st).removed
      = st.removed + rest.countP (fun pid => (vote csrf net pid VoteState.NONE).1) := by
  induction rest with
  | nil => intro i st; simp [simpleLoop]
  | cons pid rest ih =>
    intro i st
    by_cases h : (vote csrf net pid VoteState.NONE).1 <;>
      simp [simpleLoop, ih, List.countP_cons, h] <;> omega

lemma simpleLoop_failed (rest : List String) : ∀ (i : Nat) (st : SimpleSt),
    (simpleLoop csrf net delay vs total i rest st).failed
      = st.failed + rest.countP (fun pid => !(vote csrf net pid VoteState.NONE).1) := by
  induction rest with
  | nil => intro i st; simp [simpleLoop]
  | cons pid rest ih =>
    intro i st
    by_cases h : (vote csrf net pid VoteState.NONE).1 <;>
      simp [simpleLoop, ih, List.countP_cons, h] <;> omega

lemma simpleLoop_voteCalls (rest : List String) : ∀ (i : Nat) (st : SimpleSt),
    (simpleLoop csrf net delay vs total i rest st).voteCalls
      = st.voteCalls
        ++ rest.flatMap (fun pid => [(pid, vs), (pid, VoteState.NONE)]) := by
  induction rest with
  | nil => intro i st; simp [simpleLoop]
  | cons pid rest ih => intro i st; simp [simpleLoop, ih]

lemma simpleLoop_sleeps (rest : List String) : ∀ (i : Nat) (st : SimpleSt),
    (simpleLoop csrf net delay vs total i rest st).sleeps
      = st.sleeps
        ++ (List.range rest.length).flatMap (fun k =>
            [(SleepSite.betweenVotes, 3/10)]
              ++ (if i + k < total then [(SleepSite.betweenItems, delay)] else [])) := by
  induction rest with
  | nil => intro i st; simp [simpleLoop]
  | cons pid rest ih =>
    intro i st
    rw [List.length_cons, List.range_succ_eq_map]
    simp only [simpleLoop, ih, List.flatMap_cons, List.flatMap_map]
    simp only [show ∀ k : Nat, i + 1 + k = i + (k + 1) from fun k => by omega,
      Nat.add_zero, Function.comp, Nat.succ_eq_add_one, List.append_assoc]

lemma countP_not_add (p : String → Bool) (l : List String) :
    l.countP p + l.countP (fun a => !p a) = l.length := by
  induction l with
  | nil => rfl
  | cons a l ih => by_cases h : p a <;> simp [List.countP_cons, h] <;> omega

end PassLemmas

/-! ## Claims about the removal pass -/

/-- Claim C1: for every removal pass of `remove_votes`, over any discovered
identifier set, the returned statistics satisfy
`removed + failed = total` at pass completion, where `total` is the size of
the discovered set — in both the backend and the simplified variant. -/
theorem removal_stats_partition (csrf : Option String)
    (net : String → VoteState → Bool) (urlMap : String → Option String)
    (username : String) (vt : VoteType) (delay : ℚ) (post_ids : List String) :
    (removeVotesPass csrf net urlMap username vt delay post_ids).stats.removed
      + (removeVotesPass csrf net urlMap username vt delay post_ids).stats.failed
      = (removeVotesPass csrf net urlMap username vt delay post_ids).stats.total
    ∧ (removeVotesPass csrf net urlMap username vt delay post_ids).stats.total
      = post_ids.length
    ∧ (simpleRemoveVotes csrf net vt delay post_ids).stats.removed
      + (simpleRemoveVotes csrf net vt delay post_ids).stats.failed
      = (simpleRemoveVotes csrf net vt delay post_ids).stats.total
    ∧ (simpleRemoveVotes csrf net vt delay post_ids).stats.total
      = post_ids.length := by
  cases post_ids with
  | nil => simp [removeVotesPass, simpleRemoveVotes]
  | cons pid rest =>
    simp only [removeVotesPass, simpleRemoveVotes, passLoop_removed, passLoop_failed,
      simpleLoop_removed, simpleLoop_failed]
    refine ⟨?_, trivial, ?_, trivial⟩ <;>
      simpa using countP_not_add (fun pid => (vote csrf net pid VoteState.NONE).1)
        (pid :: rest)

/-- Claim C3: for every discovered post identifier the mutator issues
exactly two vote calls in order — first the listing's nominal state
(`UP` for the upvoted listing, `DOWN` for the downvoted one), then `NONE` —
and only the second call's boolean result decides whether `removed` or
`failed` is incremented: the statistics are exactly the counts of
identifiers whose `NONE` call returned `true` resp. `false`, independent of
the first call's result.  Holds for both variants. -/
theorem toggle_then_clear (csrf : Option String)
    (net : String → VoteState → Bool) (urlMap : String → Option String)
    (username : String) (vt : VoteType) (delay : ℚ) (post_ids : List String) :
    (removeVotesPass csrf net urlMap username vt delay post_ids).voteCalls
      = post_ids.flatMap (fun pid => [(pid, nominalState vt), (pid, VoteState.NONE)])
    ∧ (removeVotesPass csrf net urlMap username vt delay post_ids).stats.removed
      = post_ids.countP (fun pid => (vote csrf net pid VoteState.NONE).1)
    ∧ (removeVotesPass csrf net urlMap username vt delay post_ids).stats.failed
      = post_ids.countP (fun pid => !(vote csrf net pid VoteState.NONE).1)
    ∧ (simpleRemoveVotes csrf net vt delay post_ids).voteCalls
      = post_ids.flatMap (fun pid => [(pid, nominalState vt), (pid, VoteState.NONE)]) := by
  cases post_ids with
  | nil => simp [removeVotesPass, simpleRemoveVotes]
  | cons pid rest =>
    simp [removeVotesPass, simpleRemoveVotes, passLoop_removed, passLoop_failed,
      passLoop_voteCalls, simpleLoop_voteCalls]

/-- Counterexample to claim C5: in the simplified variant's `remove_votes`
the caller-supplied delay is NOT clamped to the 0.3 minimum — with
`delay = 0.1` and two discovered identifiers, the inter-item sleep is 0.1,
strictly below 0.3 (the clamp `max(0.3, delay)` exists only in the backend
variant; the simplified script clamps in its CLI `main`, outside
`remove_votes`). -/
theorem pacing_clamp_cex :
    (simpleRemoveVotes (Option.some "tok") (fun _ _ => true) VoteType.upvoted (1/10)
        ["t3_aa", "t3_bb"]).sleeps
      = [(SleepSite.betweenVotes, 3/10), (SleepSite.betweenItems, 1/10),
         (SleepSite.betweenVotes, 3/10)]
    ∧ ((1 : ℚ)/10 < 3/10) := by
  constructor
  · rfl
  · norm_num

/-- Claim C5 as amended: in the backend `remove_votes` the inter-item sleep
is `max(0.3, delay)` (so the delay is clamped upward to 0.3) and occurs
exactly between consecutive items, not after the last; the simplified
variant's `remove_votes` has the same between-items placement but sleeps the
raw caller-supplied delay.  Both sleep traces are characterised in full:
one fixed 0.3 sleep inside every item between its two vote calls, and one
inter-item sleep after every item except the last. -/
theorem pacing_clamp_amended (csrf : Option String)
    (net : String → VoteState → Bool) (urlMap : String → Option String)
    (username : String) (vt : VoteType) (delay : ℚ) (post_ids : List String) :
    (removeVotesPass csrf net urlMap username vt delay post_ids).sleeps
      = (List.range post_ids.length).flatMap (fun k =>
          [(SleepSite.betweenVotes, 3/10)]
            ++ (if k + 1 < post_ids.length
                then [(SleepSite.betweenItems, max (3/10) delay)] else []))
    ∧ (simpleRemoveVotes csrf net vt delay post_ids).sleeps
      = (List.range post_ids.length).flatMap (fun k =>
          [(SleepSite.betweenVotes, 3/10)]
            ++ (if k + 1 < post_ids.length
                then [(SleepSite.betweenItems, delay)] else [])) := by
  cases post_ids with
  | nil => simp [removeVotesPass, simpleRemoveVotes]
  | cons pid rest =>
    simp only [removeVotesPass, simpleRemoveVotes, passLoop_sleeps, simpleLoop_sleeps]
    simp only [show ∀ k : Nat, 1 + k = k + 1 from fun k => by omega]
    constructor <;> simp

/-- Claim C10: at the i-th per-item progress event of a backend pass (for
every i from 1 to total) the reported statistics snapshot satisfies
`removed + failed = i` (hence `removed + failed ≤ total`, as the i-th entry
of a list of length `total`), with the `total` field of every per-item
snapshot fixed to the discovery-set size before the first mutation and
unchanged for the rest of the pass. -/
theorem item_event_snapshots (csrf : Option String)
    (net : String → VoteState → Bool) (urlMap : String → Option String)
    (username : String) (vt : VoteType) (delay : ℚ) (post_ids : List String) :
    ((removeVotesPass csrf net urlMap username vt delay post_ids).events.filter
        itemEvent).map (fun e => e.removed + e.failed)
      = (List.range post_ids.length).map (fun k => k + 1)
    ∧ ((removeVotesPass csrf net urlMap username vt delay post_ids).events.filter
        itemEvent).map (fun e => e.total)
      = List.replicate post_ids.length post_ids.length
    ∧ (removeVotesPass csrf net urlMap username vt delay post_ids).stats.total
      = post_ids.length := by
  cases post_ids with
  | nil => simp [removeVotesPass, itemEvent]
  | cons pid rest =>
    simp [removeVotesPass, passLoop_item_sums, passLoop_item_totals, itemEvent]

/-- Claim C4: a remover constructed from a cookie string lacking the CSRF
cookie has `csrf_token = None`; every mutation call then returns failure
immediately with no network round-trip, and for any non-empty discovery
result the pass completes (it is a total function — nothing is raised) with
`removed = 0`, `failed = total`, and zero mutation POSTs issued. -/
theorem missing_csrf_disables_mutation (cookie_string username : String)
    (net : String → VoteState → Bool) (urlMap : String → Option String)
    (vt : VoteType) (delay : ℚ) (post_ids : List String)
    (hcsrf : csrfTokenOf cookie_string = Option.none) (hne : post_ids ≠ []) :
    (∀ pid vstate, vote (csrfTokenOf cookie_string) net pid vstate = (false, []))
    ∧ (removeVotesPass (csrfTokenOf cookie_string) net urlMap username vt delay
        post_ids).stats = ⟨post_ids.length, 0, post_ids.length⟩
    ∧ (removeVotesPass (csrfTokenOf cookie_string) net urlMap username vt delay
        post_ids).netPosts = [] := by
  rw [hcsrf]
  refine ⟨fun pid vstate => by simp [vote, pyTruthy], ?_, ?_⟩ <;>
    cases post_ids with
    | nil => exact absurd rfl hne
    | cons pid rest =>
      simp [removeVotesPass, passLoop_removed, passLoop_failed, passLoop_netPosts,
        vote, pyTruthy]

/-- Concrete instance of `missing_csrf_disables_mutation`: a cookie string
with no `csrf_token` cookie and one discovered identifier yields
`{total: 1, removed: 0, failed: 1}`. -/
theorem missing_csrf_disables_mutation_witness :
    (removeVotesPass (csrfTokenOf "sessionid=abc") (fun _ _ => true)
        (fun _ => Option.none) "user" VoteType.upvoted (1/2) ["t3_ab"]).stats
      = ⟨1, 0, 1⟩ :=
  (missing_csrf_disables_mutation "sessionid=abc" "user" (fun _ _ => true)
    (fun _ => Option.none) VoteType.upvoted (1/2) ["t3_ab"]
    (by decide) (by decide)).2.1

/-! ## Post discovery (`_get_voted_posts`) -/

/-- Outcome of one listing-page fetch, projected through the two regex
extractors of the source: `ids` is `POST_ID_PATTERN.findall(html)` (in match
order, duplicates possible) and `afterMatches` is
`AFTER_PATTERN.findall(html)`.  `notFound` is an HTTP 404 response; `err` is
any other exception (a non-2xx status raised by `raise_for_status`, a
timeout, a transport error). -/
inductive PageResult
  | notFound
  | err
  | ok (ids : List String) (afterMatches : List String)
deriving DecidableEq

/-- The pages the remote service serves, one `PageResult` per request
cursor: `Option.none` requests the first listing page, `Option.some c` the
more-posts endpoint with `after = c`.  Within one discovery run the URL and
params are a function of `after` alone (username and vote type are fixed),
so a run is determined by this map. -/
def Server : Type :=
  Option String → PageResult

/-- `next_after = after_matches[0].replace("%3D", "=") if after_matches else None`. -/
def extractAfter (afterMatches : List String) : Option String :=
  afterMatches.head?.map decodeCursor

/-- The `break` condition of the pagination loop:
`if not next_after or next_after == after or not post_ids: break`,
where `not next_after` is Python truthiness (`None` or the empty string) and
`post_ids` is the set of identifiers found on the current page. -/
def stopB (after : Option String) (ids : List String)
    (afterMatches : List String) : Bool :=
  let na := extractAfter afterMatches
  !(pyTruthy na) || decide (na = after) || ids.isEmpty

/-- `all_post_ids.update(post_ids)` on Python sets: the accumulated set is a
duplicate-free list extended by the page's fresh identifiers. -/
def listUnion (acc ids : List String) : List String :=
  acc ++ (ids.dedup.filter fun x => decide (x ∉ acc))

/-- The `while True` pagination loop of `_get_voted_posts` (identical logic
in the two sources), run with explicit fuel because the source loop need not
terminate.  Returns the final identifier set together with the number of
page fetches performed, or `Option.none` if `fuel` iterations did not
complete the loop.  A 404 returns the empty set, discarding the accumulator
(`return set()`); any other exception returns the accumulator as-is
(`except: return all_post_ids`). -/
def getAux (server : Server) : Nat → Option String → List String → Nat →
    Option (List String × Nat)
  | 0, _, _, _ => Option.none
  | fuel + 1, after, acc, pages =>
    match server after with
    | PageResult.notFound => Option.some ([], pages + 1)
    | PageResult.err => Option.some (acc, pages + 1)
    | PageResult.ok ids afterMatches =>
      let acc2 := listUnion acc ids
      if stopB after ids afterMatches then Option.some (acc2, pages + 1)
      else getAux server fuel (extractAfter afterMatches) acc2 (pages + 1)

/-- `_get_voted_posts`: the pagination loop started at the first listing
page (`after = None`) with an empty accumulator. -/
def getVotedPosts (server : Server) (fuel : Nat) : Option (List String × Nat) :=
  getAux server fuel Option.none [] 0

/-- One transition of the request cursor: from the cursor of the current
request to the cursor of the next request (frozen when the loop stops or
fails at the current one). -/
def stepOf (server : Server) (a : Option String) : Option String :=
  match server a with
  | PageResult.ok ids afterMatches =>
    if stopB a ids afterMatches then a else extractAfter afterMatches
  | _ => a

/-- The request-cursor sequence of a discovery run: `orbit server k` is the
cursor of the (k+1)-st page fetch, starting from `None`. -/
def orbit (server : Server) : Nat → Option String
  | 0 => Option.none
  | k + 1 => stepOf server (orbit server k)

/-- `POST_ID_PATTERN.findall` result of the page fetched at step `k`. -/
def idsAt (server : Server) (k : Nat) : List String :=
  match server (orbit server k) with
  | PageResult.ok ids _ => ids
  | _ => []

/-- `AFTER_PATTERN.findall` result of the page fetched at step `k`. -/
def aftersAt (server : Server) (k : Nat) : List String :=
  match server (orbit server k) with
  | PageResult.ok _ afterMatches => afterMatches
  | _ => []

/-- Whether the fetch at step `k` succeeds. -/
def okAt (server : Server) (k : Nat) : Bool :=
  match server (orbit server k) with
  | PageResult.ok _ _ => true
  | _ => false

/-- Whether the loop's break condition fires at step `k`. -/
def stopAt (server : Server) (k : Nat) : Bool :=
  match server (orbit server k) with
  | PageResult.ok ids afterMatches => stopB (orbit server k) ids afterMatches
  | _ => true

/-- The identifier set accumulated after the first `k` page fetches. -/
def discAcc (server : Server) : Nat → List String
  | 0 => []
  | k + 1 => listUnion (discAcc server k) (idsAt server k)

lemma okAt_elim {server : Server} {k : Nat} (h : okAt server k = true) :
    server (orbit server k)
      = PageResult.ok (idsAt server k) (aftersAt server k) := by
  revert h
  cases hs : server (orbit server k) with
  | ok ids afterMatches => intro _; simp [idsAt, aftersAt, hs]
  | notFound => intro h; simp [okAt, hs] at h
  | err => intro h; simp [okAt, hs] at h

lemma stopAt_of_ok {server : Server} {k : Nat} (h : okAt server k = true) :
    stopAt server k
      = stopB (orbit server k) (idsAt server k) (aftersAt server k) := by
  have hs := okAt_elim h
  simp [stopAt, hs]

lemma orbit_succ_of_run {server : Server} {k : Nat}
    (hok : okAt server k = true) (hstop : stopAt server k = false) :
    orbit server (k + 1) = extractAfter (aftersAt server k) := by
  have hs := okAt_elim hok
  have hb : stopB (orbit server k) (idsAt server k) (aftersAt server k) = false := by
    rw [← stopAt_of_ok hok]; exact hstop
  simp [orbit, stepOf, hs, hb]

lemma getAux_reach (server : Server) : ∀ (m k fuel : Nat),
    (∀ j, k ≤ j → j < k + m → okAt server j = true ∧ stopAt server j = false) →
    getAux server (m + fuel) (orbit server k) (discAcc server k) k
      = getAux server fuel (orbit server (k + m)) (discAcc server (k + m)) (k + m) := by
  intro m
  induction m with
  | zero => intro k fuel _; simp
  | succ m ih =>
    intro k fuel h
    have hk := h k (le_refl k) (by omega)
    have hs := okAt_elim hk.1
    have hb : stopB (orbit server k) (idsAt server k) (aftersAt server k) = false := by
      rw [← stopAt_of_ok hk.1]; exact hk.2
    have hstep : getAux server (m + 1 + fuel) (orbit server k) (discAcc server k) k
        = getAux server (m + fuel) (extractAfter (aftersAt server k))
            (listUnion (discAcc server k) (idsAt server k)) (k + 1) := by
      rw [show m + 1 + fuel = (m + fuel) + 1 from by omega]
      simp [getAux, hs, hb]
    rw [hstep, ← orbit_succ_of_run hk.1 hk.2,
      show listUnion (discAcc server k) (idsAt server k) = discAcc server (k + 1) from rfl,
      ih (k + 1) fuel (fun j h1 h2 => h j (by omega) (by omega)),
      show k + 1 + m = k + (m + 1) from by omega]

lemma getAux_stop (server : Server) (n fuel : Nat)
    (hok : okAt server n = true) (hstop : stopAt server n = true) :
    getAux server (fuel + 1) (orbit server n) (discAcc server n) n
      = Option.some (discAcc server (n + 1), n + 1) := by
  have hs := okAt_elim hok
  have hb : stopB (orbit server n) (idsAt server n) (aftersAt server n) = true := by
    rw [← stopAt_of_ok hok]; exact hstop
  simp [getAux, hs, hb, discAcc]

lemma getAux_none (server : Server) : ∀ (f k : Nat),
    (∀ j, k ≤ j → j < k + f → okAt server j = true ∧ stopAt server j = false) →
    getAux server f (orbit server k) (discAcc server k) k = Option.none := by
  intro f
  induction f with
  | zero => intro k _; rfl
  | succ f ih =>
    intro k h
    have hk := h k (le_refl k) (by omega)
    have hs := okAt_elim hk.1
    have hb : stopB (orbit server k) (idsAt server k) (aftersAt server k) = false := by
      rw [← stopAt_of_ok hk.1]; exact hk.2
    simp only [getAux, hs, hb]
    rw [show (if false = true then Option.some (listUnion (discAcc server k) (idsAt server k), k + 1)
        else getAux server f (extractAfter (aftersAt server k))
          (listUnion (discAcc server k) (idsAt server k)) (k + 1))
      = getAux server f (extractAfter (aftersAt server k))
          (listUnion (discAcc server k) (idsAt server k)) (k + 1) from by simp,
      ← orbit_succ_of_run hk.1 hk.2]
    exact ih (k + 1) (fun j h1 h2 => h j (by omega) (by omega))

lemma orbit_add {server : Server} {i d : Nat}
    (heq : orbit server i = orbit server d) :
    ∀ m, orbit server (i + m) = orbit server (d + m) := by
  intro m
  induction m with
  | zero => simpa using heq
  | succ m ih =>
    rw [show i + (m + 1) = (i + m) + 1 from by omega,
      show d + (m + 1) = (d + m) + 1 from by omega]
    simp only [orbit, ih]

/-! ## Claims about discovery -/

/-- Claim C2 as amended: pagination halts exactly at the first iteration `n`
at which one of the three stop conditions of the source holds — no (or
empty) extracted cursor, extracted cursor equal to the current request's
cursor, or zero identifiers extracted from the current page (new or not) —
fetching exactly `n + 1` pages and returning the union of the identifiers of
pages `0..n`; with fuel for at most `n` iterations it has not yet halted;
and the `n + 1` request cursors are pairwise distinct, so the iteration
count equals the number of distinct pages requested. -/
theorem pagination_halts_iff (server : Server) (n fuel : Nat)
    (hrun : ∀ j, j < n → okAt server j = true ∧ stopAt server j = false)
    (hok : okAt server n = true) (hstop : stopAt server n = true)
    (hfuel : n + 1 ≤ fuel) :
    getVotedPosts server fuel = Option.some (discAcc server (n + 1), n + 1)
    ∧ (∀ f, f ≤ n → getVotedPosts server f = Option.none)
    ∧ (∀ i j, i < j → j ≤ n → orbit server i ≠ orbit server j) := by
  refine ⟨?_, ?_, ?_⟩
  · obtain ⟨e, he⟩ : ∃ e, fuel = n + (e + 1) := ⟨fuel - n - 1, by omega⟩
    subst he
    have hreach := getAux_reach server n 0 (e + 1)
      (fun j h1 h2 => hrun j (by omega))
    simp only [Nat.zero_add] at hreach
    calc getVotedPosts server (n + (e + 1))
        = getAux server (n + (e + 1)) (orbit server 0) (discAcc server 0) 0 := rfl
      _ = getAux server (e + 1) (orbit server n) (discAcc server n) n := hreach
      _ = Option.some (discAcc server (n + 1), n + 1) := getAux_stop server n e hok hstop
  · intro f hf
    have hnone := getAux_none server f 0 (fun j h1 h2 => hrun j (by omega))
    simpa [getVotedPosts] using hnone
  · intro i j hij hjn heq
    have hiter := orbit_add heq (n - j)
    have hlt : i + (n - j) < n := by omega
    have hrun2 := hrun (i + (n - j)) hlt
    have hsame : stopAt server (i + (n - j)) = stopAt server (j + (n - j)) := by
      unfold stopAt; rw [hiter]
    rw [show j + (n - j) = n from by omega] at hsame
    rw [hsame, hstop] at hrun2
    exact absurd hrun2.2 (by simp)

/-- A server whose first page already satisfies a stop condition (no
identifiers, no cursor). -/
def cexServerStop : Server := fun _ => PageResult.ok [] []

/-- Concrete instance of `pagination_halts_iff`: a first page with no
identifiers halts discovery after exactly one fetch. -/
theorem pagination_halts_iff_witness :
    getVotedPosts cexServerStop 1 = Option.some (discAcc cexServerStop 1, 1) :=
  (pagination_halts_iff cexServerStop 0 1 (fun j hj => absurd hj (by omega))
    (by decide) (by decide) (by omega)).1

/-- Pages (None ↦ {t3_a}, cursor c1), (c1 ↦ {t3_a}, cursor c2), (c2 ↦ ∅):
the second fetch yields zero NEW identifiers (its only identifier was
already discovered on page one) but a nonempty identifier list. -/
def cexServerA : Server := fun a =>
  match a with
  | Option.none => PageResult.ok ["t3_a"] ["c1"]
  | Option.some "c1" => PageResult.ok ["t3_a"] ["c2"]
  | Option.some "c2" => PageResult.ok [] []
  | Option.some _ => PageResult.err

/-- A cursor 2-cycle on nonempty pages: (None ↦ {t3_a}, cursor cA),
(cA ↦ {t3_b}, cursor cB), (cB ↦ {t3_c}, cursor cA). -/
def cexServerB : Server := fun a =>
  match a with
  | Option.none => PageResult.ok ["t3_a"] ["cA"]
  | Option.some "cA" => PageResult.ok ["t3_b"] ["cB"]
  | Option.some "cB" => PageResult.ok ["t3_c"] ["cA"]
  | Option.some _ => PageResult.err

/-- Counterexample to claim C2 as stated.  (i) "zero new identifiers found
on the current page" is not a stop condition: the loop checks
`not post_ids`, i.e. zero identifiers on the page at all.  On `cexServerA`
the second fetch finds zero new identifiers (`idsAt 1` is already contained
in `discAcc 1`) yet is nonempty, and discovery performs 3 fetches instead of
halting at the second.  (ii) A cursor sequence that "eventually repeats"
non-consecutively does not halt the loop: `cexServerB` has 3 distinct pages
and its cursor repeats from the fourth fetch on, yet discovery is still
running after 50 iterations, far beyond the number of distinct pages. -/
theorem pagination_stop_cex :
    getVotedPosts cexServerA 10 = Option.some (["t3_a"], 3)
    ∧ idsAt cexServerA 1 = ["t3_a"]
    ∧ discAcc cexServerA 1 = ["t3_a"]
    ∧ getVotedPosts cexServerB 50 = Option.none := by
  refine ⟨?_, ?_, ?_, ?_⟩ <;> decide

/-- Backend `remove_votes` including its discovery phase
(src/backend/reddit_remover.py lines 155-254): discovery runs first and its
identifier set drives the removal pass.  `Option.none` when discovery does
not complete within `fuel` iterations. -/
def remove_votes (csrf : Option String) (server : Server)
    (net : String → VoteState → Bool) (urlMap : String → Option String)
    (username : String) (vt : VoteType) (delay : ℚ) (fuel : Nat) :
    Option PassOut :=
  match getVotedPosts server fuel with
  | Option.none => Option.none
  | Option.some (post_ids, _) =>
    Option.some (removeVotesPass csrf net urlMap username vt delay post_ids)

/-- Claim C7: if any page request of discovery returns "not found" (HTTP
404), discovery returns the empty set immediately, discarding anything
accumulated, and the pass returns statistics {total: 0, removed: 0,
failed: 0}, emits exactly one warning progress event, and issues no
mutation calls. -/
theorem notFound_aborts_pass (csrf : Option String) (server : Server)
    (net : String → VoteState → Bool) (urlMap : String → Option String)
    (username : String) (vt : VoteType) (delay : ℚ) (k fuel : Nat)
    (hrun : ∀ j, j < k → okAt server j = true ∧ stopAt server j = false)
    (h404 : server (orbit server k) = PageResult.notFound)
    (hfuel : k + 1 ≤ fuel) :
    remove_votes csrf server net urlMap username vt delay fuel
      = Option.some ⟨⟨0, 0, 0⟩,
          [⟨"No " ++ vt.value ++ " posts found for @" ++ username ++ ".",
             "warning", 0, 0, 0, Option.none, Option.none, Option.none⟩],
          [], [], []⟩ := by
  obtain ⟨e, he⟩ : ∃ e, fuel = k + (e + 1) := ⟨fuel - k - 1, by omega⟩
  subst he
  have hreach := getAux_reach server k 0 (e + 1) (fun j h1 h2 => hrun j (by omega))
  simp only [Nat.zero_add] at hreach
  have hdisc : getVotedPosts server (k + (e + 1)) = Option.some ([], k + 1) := by
    calc getVotedPosts server (k + (e + 1))
        = getAux server (k + (e + 1)) (orbit server 0) (discAcc server 0) 0 := rfl
      _ = getAux server (e + 1) (orbit server k) (discAcc server k) k := hreach
      _ = Option.some ([], k + 1) := by simp [getAux, h404]
  simp [remove_votes, hdisc, removeVotesPass]

/-- A server whose every page request returns 404. -/
def cexServer404 : Server := fun _ => PageResult.notFound

/-- Concrete instance of `notFound_aborts_pass`: a 404 on the first page
yields zero statistics and the single warning event. -/
theorem notFound_aborts_pass_witness :
    remove_votes Option.none cexServer404 (fun _ _ => true) (fun _ => Option.none)
      "user" VoteType.upvoted (1/2) 1
      = Option.some ⟨⟨0, 0, 0⟩,
          [⟨"No " ++ VoteType.upvoted.value ++ " posts found for @" ++ "user" ++ ".",
             "warning", 0, 0, 0, Option.none, Option.none, Option.none⟩],
          [], [], []⟩ :=
  notFound_aborts_pass Option.none cexServer404 (fun _ _ => true)
    (fun _ => Option.none) "user" VoteType.upvoted (1/2) 0 1
    (fun j hj => absurd hj (by omega)) (by decide) (by omega)

/-- Claim C9: if an exception occurs during pagination after the first page
succeeded, discovery returns the set of identifiers accumulated so far
(`discAcc server k`, the union over the pages fetched before the failing
request) rather than raising or returning empty: the run is a total
function returning `Option.some` of the accumulation, whatever was gathered
on pages `0..k-1`. -/
theorem exception_returns_partial (server : Server) (k fuel : Nat)
    (hrun : ∀ j, j < k → okAt server j = true ∧ stopAt server j = false)
    (_hk : 1 ≤ k)
    (herr : server (orbit server k) = PageResult.err)
    (hfuel : k + 1 ≤ fuel) :
    getVotedPosts server fuel = Option.some (discAcc server k, k + 1) := by
  obtain ⟨e, he⟩ : ∃ e, fuel = k + (e + 1) := ⟨fuel - k - 1, by omega⟩
  subst he
  have hreach := getAux_reach server k 0 (e + 1) (fun j h1 h2 => hrun j (by omega))
  simp only [Nat.zero_add] at hreach
  calc getVotedPosts server (k + (e + 1))
      = getAux server (k + (e + 1)) (orbit server 0) (discAcc server 0) 0 := rfl
    _ = getAux server (e + 1) (orbit server k) (discAcc server k) k := hreach
    _ = Option.some (discAcc server k, k + 1) := by simp [getAux, herr]

/-- First page succeeds with one identifier, the second request raises. -/
def cexServerErr : Server := fun a =>
  match a with
  | Option.none => PageResult.ok ["t3_a"] ["c1"]
  | Option.some _ => PageResult.err

/-- Concrete instance of `exception_returns_partial`: the page-one
identifier survives a page-two exception. -/
theorem exception_returns_partial_witness :
    getVotedPosts cexServerErr 2 = Option.some (discAcc cexServerErr 1, 2) :=
  exception_returns_partial cexServerErr 1 2
    (fun j hj => by
      have hj0 : j = 0 := by omega
      subst hj0
      exact (by decide))
    (by omega) (by decide) (by omega)

end RedditRemover
